import Mathlib

/-!
Verification development for the ollama-openrouter-proxy gateway
(`provider.go`, `main.go`): a shallow embedding of its request
normalization, image-signature detection, model-alias resolution and
NDJSON stream-translation logic, together with theorems about them.

Go strings are modelled as `List Char`; Go slices as `List`; fallible
operations as `Except`/`Option`.  Logging calls (`slog.*`) are pure
no-ops and are not modelled.  Wall-clock values (`time.Now()`), the
`model` echo field and JSON serialisation itself are not modelled: the
envelope model carries exactly the fields the handlers compute.
-/

namespace OllamaProxy

/-- Go strings, modelled as lists of characters. -/
abbrev GoStr := List Char

/-- Model of `unicode.IsSpace` restricted to the Latin-1 range, as used by
`strings.TrimSpace` in `formatImageForAPI` (provider.go line 24).
Code points above U+00FF with the Unicode space property are not
modelled; no claim touches them. -/
def isSpaceChar (c : Char) : Bool :=
  c = ' ' || c = '\t' || c = '\n' || c = '\x0b' || c = '\x0c' || c = '\r' ||
  c = '\u0085' || c = '\u00a0'

/-- Model of `strings.TrimSpace`: drop whitespace from both ends. -/
def trimSpace (s : GoStr) : GoStr :=
  List.rdropWhile isSpaceChar (List.dropWhile isSpaceChar s)

/-- The literal `"data:image/"` tested by `strings.HasPrefix` in
`formatImageForAPI` (provider.go line 27). -/
def dataMark : GoStr := ("data:image/").toList

/-- The literal `";base64,"` tested by `strings.Contains`
(provider.go line 27). -/
def b64Mark : GoStr := (";base64,").toList

/-- JPEG base64 signature `"/9j/"` (provider.go line 38). -/
def jpegSig : GoStr := ("/9j/").toList

/-- PNG base64 signature `"iVBOR"` (provider.go line 41). -/
def pngSig : GoStr := ("iVBOR").toList

/-- GIF base64 signature `"R0lGOD"` (provider.go line 45). -/
def gifSig : GoStr := ("R0lGOD").toList

/-- WEBP base64 signature `"UklGR"` (provider.go line 49). -/
def webpSig : GoStr := ("UklGR").toList

/-- The data-URL head prepended for JPEG (provider.go line 40). -/
def jpegURLHead : GoStr := ("data:image/jpeg;base64,").toList

/-- The data-URL head prepended for PNG (provider.go line 44). -/
def pngURLHead : GoStr := ("data:image/png;base64,").toList

/-- The data-URL head prepended for GIF (provider.go line 48). -/
def gifURLHead : GoStr := ("data:image/gif;base64,").toList

/-- The data-URL head prepended for WEBP (provider.go line 52). -/
def webpURLHead : GoStr := ("data:image/webp;base64,").toList

/-- Model of `strings.Contains hay needle`: some contiguous run of `hay`
equals `needle`. -/
def goContains : GoStr → GoStr → Bool
  | [], needle => needle.isPrefixOf []
  | c :: t, needle => needle.isPrefixOf (c :: t) || goContains t needle

/-- Model of `formatImageForAPI` (provider.go lines 16-59): classify a base64
payload from its leading characters and produce a data URL.  Empty
input yields the empty string (the Go function logs an error and
returns `""`).  Non-empty input is first passed through
`strings.TrimSpace` (the Go reassignment of `imgBase64` is inlined here
as repeated `trimSpace` applications); an input that already carries a
`data:image/...;base64,` shape is returned (trimmed) unchanged;
otherwise the first matching signature in the order JPEG, PNG, GIF,
WEBP decides the MIME type, defaulting to JPEG. -/
def formatImageForAPI (imgBase64 : GoStr) : GoStr :=
  if imgBase64.length = 0 then []
  else if dataMark.isPrefixOf (trimSpace imgBase64) &&
      goContains (trimSpace imgBase64) b64Mark then trimSpace imgBase64
  else if jpegSig.isPrefixOf (trimSpace imgBase64) then jpegURLHead ++ trimSpace imgBase64
  else if pngSig.isPrefixOf (trimSpace imgBase64) then pngURLHead ++ trimSpace imgBase64
  else if gifSig.isPrefixOf (trimSpace imgBase64) then gifURLHead ++ trimSpace imgBase64
  else if webpSig.isPrefixOf (trimSpace imgBase64) then webpURLHead ++ trimSpace imgBase64
  else jpegURLHead ++ trimSpace imgBase64

/-- The detector output exactly as the specification words it, for the
refinement comparison of claim C5: the string
`"data:image/<type>;base64,"` concatenated with THE INPUT itself, the
type chosen from the input's literal leading characters in the
precedence order JPEG, PNG, GIF, WEBP, defaulting to JPEG.  Written
from the spec's words, not from the source; `formatImageForAPI` is the
source-side function it is compared against. -/
def detectorClaimOutput (s : GoStr) : GoStr :=
  if jpegSig.isPrefixOf s then jpegURLHead ++ s
  else if pngSig.isPrefixOf s then pngURLHead ++ s
  else if gifSig.isPrefixOf s then gifURLHead ++ s
  else if webpSig.isPrefixOf s then webpURLHead ++ s
  else jpegURLHead ++ s

/-- One content part of a multimodal message
(`openai.ChatMessagePart`): either text or an image reference by URL. -/
inductive ChatMessagePart where
  | text (value : GoStr)
  | imageURL (url : GoStr)
  deriving DecidableEq

/-- Model of `openai.ChatCompletionMessage`, restricted to the fields the
handlers read and write: role, plain content and multi-content parts. -/
structure ChatCompletionMessage where
  role : GoStr
  content : GoStr
  multiContent : List ChatMessagePart
  deriving DecidableEq

/-- The `MessageWithImages` shape parsed from a raw `/api/chat` body
(main.go lines 150-154). -/
structure MessageWithImages where
  role : GoStr
  content : GoStr
  images : List GoStr
  deriving DecidableEq

/-- The role literal `"user"`. -/
def userRole : GoStr := ("user").toList

/-- The role literal `"system"`. -/
def systemRole : GoStr := ("system").toList

/-- Message-scoped image pass of `/api/chat` (main.go lines 188-265):
a user message carrying images is rebuilt as a text part followed by
one image part per non-empty image in order (empty entries are
skipped); any other message passes through with role and content
intact and no content parts. -/
def processMessageImages (m : MessageWithImages) : ChatCompletionMessage :=
  if m.role ≠ userRole ∨ m.images = [] then ⟨m.role, m.content, []⟩
  else
    ⟨m.role, [],
      ChatMessagePart.text m.content ::
        (m.images.filter (fun img => img ≠ [])).map
          (fun img => ChatMessagePart.imageURL (formatImageForAPI img))⟩

/-- Index of the last message with role `"user"`, scanning from the
end (main.go lines 275-281); `none` when no user message exists. -/
def lastUserMsgIndex : List ChatCompletionMessage → Option Nat
  | [] => none
  | m :: rest =>
    match lastUserMsgIndex rest with
    | some j => some (j + 1)
    | none => if m.role = userRole then some 0 else none

/-- Attach the top-level image list to one message (main.go lines
284-326): reuse its existing content parts, or synthesize a leading
text part from its plain content, then append one image part per
top-level image — this Go loop does not skip empty image entries. -/
def attachTopImages (m : ChatCompletionMessage) (images : List GoStr) :
    ChatCompletionMessage :=
  let base :=
    if m.multiContent ≠ [] then m.multiContent else [ChatMessagePart.text m.content]
  ⟨m.role, [],
    base ++ images.map (fun img => ChatMessagePart.imageURL (formatImageForAPI img))⟩

/-- The `/api/chat` message-normalization pipeline (main.go lines
188-327): convert the parsed messages while processing message-scoped
images, then attach top-level images to the last user message when
the request carries any and such a message exists. -/
def processChatMessages (msgs : List MessageWithImages) (topImages : List GoStr) :
    List ChatCompletionMessage :=
  let pass1 := msgs.map processMessageImages
  if topImages = [] ∨ pass1 = [] then pass1
  else
    match lastUserMsgIndex pass1 with
    | none => pass1
    | some i =>
      match pass1[i]? with
      | some m => pass1.set i (attachTopImages m topImages)
      | none => pass1

/-- Message construction shared by `Generate` and `GenerateStream`
(provider.go lines 186-247 and 267-328): a user message from the
prompt, an optional leading system message, and — when images are
present — the user message replaced by a text part followed by one
image part per non-empty image (empty entries are skipped). -/
def buildGenerateMessages (prompt systemPrompt : GoStr) (images : List GoStr) :
    List ChatCompletionMessage :=
  let base := [(⟨userRole, prompt, []⟩ : ChatCompletionMessage)]
  let msgs :=
    if systemPrompt ≠ [] then (⟨systemRole, systemPrompt, []⟩ : ChatCompletionMessage) :: base
    else base
  if images = [] then msgs
  else
    let contentItems :=
      ChatMessagePart.text prompt ::
        (images.filter (fun img => img ≠ [])).map
          (fun img => ChatMessagePart.imageURL (formatImageForAPI img))
    msgs.set (msgs.length - 1) ⟨userRole, [], contentItems⟩

/-- The provider's shared model-name cache
(`OpenrouterProvider.modelNames`, provider.go line 63). -/
structure ProviderState where
  modelNames : List GoStr
  deriving DecidableEq

/-- Model of `GetModels` (provider.go lines 365-406), abstracted over the
outcome of the upstream `ListModels` call: on error the cache is left
untouched; on success it is cleared and rebuilt from exactly the
fetched identifiers.  The `[]Model` display structs built alongside
(stub sizes, digests, families) are not modelled. -/
def getModels (st : ProviderState) (fetched : Except GoStr (List GoStr)) :
    Except GoStr (List GoStr) × ProviderState :=
  match fetched with
  | Except.error e => (Except.error e, st)
  | Except.ok ids => (Except.ok ids, ⟨ids⟩)

/-- Exact-match scan of `GetFullModelName` (provider.go lines 438-442). -/
def findExact (names : List GoStr) (aliasName : GoStr) : Option GoStr :=
  names.find? (fun n => n = aliasName)

/-- Suffix-match scan of `GetFullModelName` (provider.go lines 445-449):
first cached name that `strings.HasSuffix`-matches the alias. -/
def findSuffix (names : List GoStr) (aliasName : GoStr) : Option GoStr :=
  names.find? (fun n => aliasName.isSuffixOf n)

/-- The matching core of `GetFullModelName`: exact match first, then
first suffix match in cache order, then the alias unchanged. -/
def resolveAlias (names : List GoStr) (aliasName : GoStr) : GoStr :=
  match findExact names aliasName with
  | some n => n
  | none =>
    match findSuffix names aliasName with
    | some n => n
    | none => aliasName

/-- Error text `"failed to get models: "` wrapped around a failed lazy
fetch (provider.go line 433). -/
def failedGetModels : GoStr := ("failed to get models: ").toList

/-- Model of `GetFullModelName` (provider.go lines 428-454), abstracted over
the outcome of the upstream catalog fetch: when the cache is empty a
synchronous `GetModels` runs first and its failure aborts resolution;
otherwise (and after a successful fetch) the alias is matched against
the cache and resolution never fails. -/
def getFullModelName (st : ProviderState) (fetched : Except GoStr (List GoStr))
    (aliasName : GoStr) : Except GoStr GoStr × ProviderState :=
  if st.modelNames = [] then
    match getModels st fetched with
    | (Except.error e, st') => (Except.error (failedGetModels ++ e), st')
    | (Except.ok _, st') => (Except.ok (resolveAlias st'.modelNames aliasName), st')
  else
    (Except.ok (resolveAlias st.modelNames aliasName), st)

/-- Whether an `Except` is a success (`err == nil` in Go); used to
state error-path claims. -/
def exceptIsOk {ε α : Type} : Except ε α → Bool
  | Except.ok _ => true
  | Except.error _ => false

/-- One choice of a non-streaming upstream chat response, restricted
to what the handler reads. -/
structure ChatChoice where
  content : GoStr
  finishReason : GoStr
  deriving DecidableEq

/-- A non-streaming upstream chat response
(`openai.ChatCompletionResponse`), restricted to its choice list. -/
structure ChatResponse where
  choices : List ChatChoice
  deriving DecidableEq

/-- HTTP status chosen by the non-streaming `/api/chat` branch
(main.go lines 340-395): alias-resolution failure maps to 404, a
failed chat call to 500, an empty choice list to 500, success to 200. -/
def chatHandlerStatus (st : ProviderState) (fetched : Except GoStr (List GoStr))
    (aliasName : GoStr) (chatResult : Except GoStr ChatResponse) : Nat :=
  match (getFullModelName st fetched aliasName).1 with
  | Except.error _ => 404
  | Except.ok _ =>
    match chatResult with
    | Except.error _ => 500
    | Except.ok resp => if resp.choices = [] then 500 else 200

/-- One choice inside a streamed upstream event: the delta text and
the finish reason ([] when absent). -/
structure StreamChoice where
  deltaContent : GoStr
  finishReason : GoStr
  deriving DecidableEq

/-- One upstream stream event (`openai.ChatCompletionStreamResponse`),
restricted to its choice list. -/
structure StreamEvent where
  choices : List StreamChoice
  deriving DecidableEq

/-- How the upstream stream ends after its delivered events: a clean
`io.EOF` or a transport error carrying a message. -/
inductive StreamEnd where
  | eof
  | transportError (msg : GoStr)
  deriving DecidableEq

/-- Literal `"Stream error: "`, prepended inside the in-band error envelope
(main.go lines 445 and 680). -/
def streamErrHead : GoStr := ("Stream error: ").toList

/-- Literal `"stop"`, the default finish reason (main.go lines 487 and 713). -/
def stopReason : GoStr := ("stop").toList

/-- One NDJSON line of the `/api/chat` streaming branch.  `chunk` is a
`done=false` envelope carrying only its delta content — these lines
have no finish-reason field at all; `final` is the `done=true` envelope
with the finish reason and the five statistics fields in source order
(total_duration, load_duration, prompt_eval_count, eval_count,
eval_duration); `errLine` is the in-band error envelope. -/
inductive ChatLine where
  | chunk (content : GoStr)
  | final (finishReason : GoStr)
      (totalDuration loadDuration promptEvalCount evalCount evalDuration : Nat)
  | errLine (msg : GoStr)
  deriving DecidableEq

/-- One NDJSON line of the `/api/generate` streaming branch; `final`
carries done_reason and the six statistics fields in source order
(total_duration, load_duration, prompt_eval_count,
prompt_eval_duration, eval_count, eval_duration). -/
inductive GenLine where
  | chunk (content : GoStr)
  | final (doneReason : GoStr)
      (totalDuration loadDuration promptEvalCount promptEvalDuration evalCount evalDuration : Nat)
  | errLine (msg : GoStr)
  deriving DecidableEq

/-- Lines flushed to the client together with how the handler left the
stream: `ok` covers clean completion and the handled transport-error
path (the handler returns normally in both); `panicked` marks the run
aborting in a Go runtime panic — the unguarded `response.Choices[0]`
read on an event with an empty choice list — after the recorded lines
were already flushed. -/
inductive StreamOutcome (α : Type) where
  | ok (lines : List α)
  | panicked (lines : List α)
  deriving DecidableEq

/-- Prepend one already-flushed line to an outcome. -/
def StreamOutcome.cons {α : Type} (l : α) : StreamOutcome α → StreamOutcome α
  | StreamOutcome.ok ls => StreamOutcome.ok (l :: ls)
  | StreamOutcome.panicked ls => StreamOutcome.panicked (l :: ls)

/-- The flushed lines, regardless of outcome. -/
def StreamOutcome.lines {α : Type} : StreamOutcome α → List α
  | StreamOutcome.ok ls => ls
  | StreamOutcome.panicked ls => ls

/-- Whether the handler ran to a normal return. -/
def StreamOutcome.isOk {α : Type} : StreamOutcome α → Bool
  | StreamOutcome.ok _ => true
  | StreamOutcome.panicked _ => false

/-- The final `/api/chat` envelope (main.go lines 486-514): finish
reason defaulting to `"stop"`, empty content, all five statistics
fields zero. -/
def chatFinalLine (fr : GoStr) : ChatLine :=
  ChatLine.final (if fr = [] then stopReason else fr) 0 0 0 0 0

/-- The final `/api/generate` envelope (main.go lines 712-729): finish
reason defaulting to `"stop"`, empty response text, and the six fixed
placeholder statistics values from the source. -/
def genFinalLine (fr : GoStr) : GenLine :=
  GenLine.final (if fr = [] then stopReason else fr)
    1000000000 5000000 20 200000000 100 800000000

/-- The `/api/chat` streaming loop (main.go lines 432-515), abstracted
over the delivered events and how the stream ends.  Each event first
updates the remembered finish reason (that read is guarded on a
non-empty choice list), then is re-emitted as one `done=false` line
built from the unguarded `response.Choices[0].Delta.Content` read — so
an event with no choices panics; after `io.EOF` exactly one final line
goes out, and a transport error instead emits one in-band error line
and returns without a final line. -/
def chatStreamLoop (fr : GoStr) : List StreamEvent → StreamEnd → StreamOutcome ChatLine
  | [], StreamEnd.eof => StreamOutcome.ok [chatFinalLine fr]
  | [], StreamEnd.transportError m =>
      StreamOutcome.ok [ChatLine.errLine (streamErrHead ++ m)]
  | e :: rest, ending =>
    let fr' :=
      match e.choices with
      | c :: _ => if c.finishReason ≠ [] then c.finishReason else fr
      | [] => fr
    match e.choices with
    | [] => StreamOutcome.panicked []
    | c :: _ =>
        StreamOutcome.cons (ChatLine.chunk c.deltaContent) (chatStreamLoop fr' rest ending)

/-- The `/api/chat` streaming handler body once the stream is open. -/
def chatStream (events : List StreamEvent) (ending : StreamEnd) : StreamOutcome ChatLine :=
  chatStreamLoop [] events ending

/-- The `/api/generate` streaming loop (main.go lines 669-738); same
shape as the `/api/chat` loop, including the unguarded first-choice
read, but with the generate envelope flavor. -/
def genStreamLoop (fr : GoStr) : List StreamEvent → StreamEnd → StreamOutcome GenLine
  | [], StreamEnd.eof => StreamOutcome.ok [genFinalLine fr]
  | [], StreamEnd.transportError m =>
      StreamOutcome.ok [GenLine.errLine (streamErrHead ++ m)]
  | e :: rest, ending =>
    let fr' :=
      match e.choices with
      | c :: _ => if c.finishReason ≠ [] then c.finishReason else fr
      | [] => fr
    match e.choices with
    | [] => StreamOutcome.panicked []
    | c :: _ =>
        StreamOutcome.cons (GenLine.chunk c.deltaContent) (genStreamLoop fr' rest ending)

/-- The `/api/generate` streaming handler body once the stream is open. -/
def genStream (events : List StreamEvent) (ending : StreamEnd) : StreamOutcome GenLine :=
  genStreamLoop [] events ending

/-- First-choice delta of an event ([] when the event has no choices);
used to state theorems about well-formed events. -/
def headDelta (e : StreamEvent) : GoStr :=
  match e.choices with
  | c :: _ => c.deltaContent
  | [] => []

/-- The remembered finish reason after folding the loop's last-write-
wins update over a list of events, starting from `fr`. -/
def foldFR (fr : GoStr) (events : List StreamEvent) : GoStr :=
  events.foldl
    (fun acc e =>
      match e.choices with
      | c :: _ => if c.finishReason ≠ [] then c.finishReason else acc
      | [] => acc)
    fr

/-- Whether a chat line is the `done=true` terminal envelope. -/
def ChatLine.isDone : ChatLine → Bool
  | ChatLine.final .. => true
  | _ => false

/-- Whether a chat line is a `done=false` delta envelope. -/
def ChatLine.isChunk : ChatLine → Bool
  | ChatLine.chunk _ => true
  | _ => false

/-- Whether a generate line is the `done=true` terminal envelope. -/
def GenLine.isDone : GenLine → Bool
  | GenLine.final .. => true
  | _ => false

/-- Whether a generate line is a `done=false` delta envelope. -/
def GenLine.isChunk : GenLine → Bool
  | GenLine.chunk _ => true
  | _ => false

/-- The one line emitted after the last delivered event, by how the
stream ends: the final envelope on `io.EOF`, the in-band error
envelope on a transport error (chat flavor). -/
def endLineChat : StreamEnd → GoStr → ChatLine
  | StreamEnd.eof, fr => chatFinalLine fr
  | StreamEnd.transportError m, _ => ChatLine.errLine (streamErrHead ++ m)

/-- The one line emitted after the last delivered event (generate
flavor). -/
def endLineGen : StreamEnd → GoStr → GenLine
  | StreamEnd.eof, fr => genFinalLine fr
  | StreamEnd.transportError m, _ => GenLine.errLine (streamErrHead ++ m)

/-! ### Helper lemmas about `goContains` and `trimSpace` -/

theorem goContains_spec (hay needle : GoStr) :
    goContains hay needle = true ↔ needle <:+: hay := by
  induction hay with
  | nil =>
    simp [goContains, List.isPrefixOf_iff_prefix, List.infix_nil, List.prefix_nil]
  | cons c t ih =>
    simp only [goContains, Bool.or_eq_true, List.isPrefixOf_iff_prefix, ih,
      List.infix_cons_iff]

theorem dropWhile_fix_append (l₁ l₂ : GoStr) (hne : l₁ ≠ [])
    (h : List.dropWhile isSpaceChar l₁ = l₁) :
    List.dropWhile isSpaceChar (l₁ ++ l₂) = l₁ ++ l₂ := by
  cases l₁ with
  | nil => exact absurd rfl hne
  | cons a l' =>
    have ha : isSpaceChar a = false := by
      by_contra hcon
      have ha' : isSpaceChar a = true := by
        cases hh : isSpaceChar a with
        | false => exact absurd hh hcon
        | true => rfl
      rw [List.dropWhile_cons, if_pos ha'] at h
      have hlen := congrArg List.length h
      have hle := (List.dropWhile_suffix (p := isSpaceChar) (l := l')).length_le
      simp at hlen
      omega
    rw [List.cons_append, List.dropWhile_cons, if_neg (by simp [ha])]

theorem rdropWhile_fix_append (l₁ l₂ : GoStr)
    (h₁ : List.rdropWhile isSpaceChar l₁ = l₁)
    (h₂ : List.rdropWhile isSpaceChar l₂ = l₂) :
    List.rdropWhile isSpaceChar (l₁ ++ l₂) = l₁ ++ l₂ := by
  by_cases hl₂ : l₂ = []
  · subst hl₂; simpa using h₁
  · have h₂' : List.dropWhile isSpaceChar l₂.reverse = l₂.reverse := by
      have := congrArg List.reverse h₂
      rwa [List.rdropWhile, List.reverse_reverse] at this
    have hrev : l₂.reverse ≠ [] := by simpa using hl₂
    rw [List.rdropWhile, List.reverse_append,
      dropWhile_fix_append l₂.reverse l₁.reverse hrev h₂', List.reverse_append,
      List.reverse_reverse, List.reverse_reverse]

theorem trimSpace_dropWhile_fix (s : GoStr) :
    List.dropWhile isSpaceChar (trimSpace s) = trimSpace s := by
  unfold trimSpace
  set u := List.dropWhile isSpaceChar s with hu
  have hufix : List.dropWhile isSpaceChar u = u := by
    rw [hu]; exact List.dropWhile_idempotent _ _
  rcases hpre : List.rdropWhile isSpaceChar u with _ | ⟨a, v⟩
  · simp
  · obtain ⟨w, hw⟩ := List.rdropWhile_prefix isSpaceChar u
    rw [hpre] at hw
    have hu' : u = a :: (v ++ w) := by rw [← hw]; simp
    have ha : isSpaceChar a = false := by
      by_contra hcon
      have ha' : isSpaceChar a = true := by
        cases hh : isSpaceChar a with
        | false => exact absurd hh hcon
        | true => rfl
      rw [hu'] at hufix
      rw [List.dropWhile_cons, if_pos ha'] at hufix
      have hle := (List.dropWhile_suffix (p := isSpaceChar) (l := v ++ w)).length_le
      rw [hufix] at hle
      simp at hle
    rw [List.dropWhile_cons, if_neg (by simp [ha])]

theorem trimSpace_rdropWhile_fix (s : GoStr) :
    List.rdropWhile isSpaceChar (trimSpace s) = trimSpace s := by
  unfold trimSpace
  exact List.rdropWhile_idempotent _ _

theorem trimSpace_trimSpace (s : GoStr) :
    trimSpace (trimSpace s) = trimSpace s := by
  conv_lhs => rw [trimSpace, trimSpace_dropWhile_fix s]
  exact trimSpace_rdropWhile_fix s

theorem trimSpace_fix_iff (s : GoStr) :
    trimSpace s = s ↔
      (List.dropWhile isSpaceChar s = s ∧ List.rdropWhile isSpaceChar s = s) := by
  constructor
  · intro h
    constructor
    · rw [← h]; exact trimSpace_dropWhile_fix s
    · rw [← h]; exact trimSpace_rdropWhile_fix s
  · rintro ⟨h₁, h₂⟩
    rw [trimSpace, h₁, h₂]

/-! ### Characterizations of `formatImageForAPI` -/

theorem formatImageForAPI_of_dataURL (s : GoStr) (h0 : s ≠ [])
    (h1 : dataMark.isPrefixOf (trimSpace s) = true)
    (h2 : goContains (trimSpace s) b64Mark = true) :
    formatImageForAPI s = trimSpace s := by
  unfold formatImageForAPI
  rw [if_neg (by simp only [List.length_eq_zero]; exact h0),
    if_pos (by rw [h1, h2]; rfl)]

theorem formatImageForAPI_not_data (s : GoStr) (h0 : s ≠ [])
    (hnd : ¬ (dataMark.isPrefixOf (trimSpace s) && goContains (trimSpace s) b64Mark) = true) :
    ∃ H, (H = jpegURLHead ∨ H = pngURLHead ∨ H = gifURLHead ∨ H = webpURLHead) ∧
      formatImageForAPI s = H ++ trimSpace s := by
  unfold formatImageForAPI
  rw [if_neg (by simp only [List.length_eq_zero]; exact h0), if_neg hnd]
  split_ifs
  · exact ⟨jpegURLHead, Or.inl rfl, rfl⟩
  · exact ⟨pngURLHead, Or.inr (Or.inl rfl), rfl⟩
  · exact ⟨gifURLHead, Or.inr (Or.inr (Or.inl rfl)), rfl⟩
  · exact ⟨webpURLHead, Or.inr (Or.inr (Or.inr rfl)), rfl⟩
  · exact ⟨jpegURLHead, Or.inl rfl, rfl⟩

theorem formatImage_head_fixed (H t : GoStr)
    (hne : H ≠ [])
    (hHd : List.dropWhile isSpaceChar H = H)
    (hHr : List.rdropWhile isSpaceChar H = H)
    (hHpre : dataMark.isPrefixOf H = true)
    (hHcont : goContains H b64Mark = true)
    (ht : List.rdropWhile isSpaceChar t = t) :
    formatImageForAPI (H ++ t) = H ++ t := by
  have htrim : trimSpace (H ++ t) = H ++ t := by
    rw [trimSpace_fix_iff]
    exact ⟨dropWhile_fix_append H t hne hHd, rdropWhile_fix_append H t hHr ht⟩
  have hne' : H ++ t ≠ [] := fun hh => hne (List.append_eq_nil.mp hh).1
  have hpre : dataMark.isPrefixOf (H ++ t) = true := by
    rw [ List.isPrefixOf_iff_prefix] at hHpre ⊢
    exact hHpre.trans ( List.prefix_append H t)
  have hcont : goContains (H ++ t) b64Mark = true := by
    rw [goContains_spec] at hHcont ⊢
    exact hHcont.trans ( List.prefix_append H t).isInfix
  rw [formatImageForAPI_of_dataURL (H ++ t) hne' (by rw [htrim]; exact hpre)
    (by rw [htrim]; exact hcont), htrim]

/-! ### Claim C5: image signature detection -/

/-- Claim C5, amended: for every non-empty input that carries no
surrounding whitespace (the amendment — the Go code runs the input
through `strings.TrimSpace` first, which the claim does not account
for) and no existing data-URL shape, the detector checks the literal
leading characters in the precedence order JPEG, PNG, GIF, WEBP with
the first match winning, defaults to JPEG, and returns exactly
`"data:image/<type>;base64,"` concatenated with the input — that is,
the source function agrees with the claim-worded `detectorClaimOutput`. -/
theorem claim_C5_detector_precedence (s : GoStr) (h0 : s ≠ []) (ht : trimSpace s = s)
    (hnd : ¬ (dataMark.isPrefixOf s && goContains s b64Mark) = true) :
    formatImageForAPI s = detectorClaimOutput s := by
  unfold formatImageForAPI detectorClaimOutput
  rw [ht, if_neg (by simp only [List.length_eq_zero]; exact h0), if_neg hnd]

/-- Witness for claim C5's theorem at a concrete PNG-signature input. -/
theorem claim_C5_witness :
    formatImageForAPI (("iVBORw0KG").toList) = ("data:image/png;base64,iVBORw0KG").toList :=
  (claim_C5_detector_precedence (("iVBORw0KG").toList) (by decide) (by decide)
    (by decide)).trans (by decide)

/-- Counterexample to claim C5 as stated: on input with surrounding
whitespace the output is NOT `"data:image/<type>;base64," ++ input` —
the whitespace is trimmed away first, and with leading whitespace even
the detected type differs from checking the input's literal leading
characters. -/
theorem claim_C5_counterexample :
    formatImageForAPI (("/9j/ab ").toList) ≠ jpegURLHead ++ ("/9j/ab ").toList ∧
    formatImageForAPI (("/9j/ab ").toList) = jpegURLHead ++ ("/9j/ab").toList ∧
    formatImageForAPI ((" iVBORx").toList) = pngURLHead ++ ("iVBORx").toList ∧
    formatImageForAPI ((" iVBORx").toList) ≠ detectorClaimOutput ((" iVBORx").toList) := by
  decide

/-! ### Claim C9: detector idempotence -/

/-- Claim C9, amended: an input that already begins with a
`data:image/...;base64,` shape is returned unchanged provided it
carries no surrounding whitespace (the amendment — an already-prefixed
input with trailing whitespace is returned trimmed instead), and
applying the detector twice to ANY input yields the same result as
applying it once. -/
theorem claim_C9_idempotence :
    (∀ s : GoStr, trimSpace s = s → dataMark.isPrefixOf s = true →
        goContains s b64Mark = true → formatImageForAPI s = s) ∧
    (∀ s : GoStr, formatImageForAPI (formatImageForAPI s) = formatImageForAPI s) := by
  have part1 : ∀ s : GoStr, trimSpace s = s → dataMark.isPrefixOf s = true →
      goContains s b64Mark = true → formatImageForAPI s = s := by
    intro s ht hpre hcont
    have hne : s ≠ [] := by
      intro h; subst h
      rw [ List.isPrefixOf_iff_prefix, List.prefix_nil] at hpre
      exact (by decide : dataMark ≠ []) hpre
    rw [formatImageForAPI_of_dataURL s hne (by rwa [ht]) (by rwa [ht]), ht]
  refine ⟨part1, ?_⟩
  intro s
  by_cases h0 : s = []
  · subst h0; rfl
  · by_cases hd : (dataMark.isPrefixOf (trimSpace s) && goContains (trimSpace s) b64Mark) = true
    · obtain ⟨hp, hc⟩ := (Bool.and_eq_true _ _).mp hd
      rw [formatImageForAPI_of_dataURL s h0 hp hc]
      exact part1 (trimSpace s) (trimSpace_trimSpace s) hp hc
    · obtain ⟨H, hH, heq⟩ := formatImageForAPI_not_data s h0 hd
      have hprops : H ≠ [] ∧ List.dropWhile isSpaceChar H = H ∧
          List.rdropWhile isSpaceChar H = H ∧ dataMark.isPrefixOf H = true ∧
          goContains H b64Mark = true := by
        rcases hH with rfl | rfl | rfl | rfl <;>
          exact ⟨by decide, by decide, by decide, by decide, by decide⟩
      rw [heq]
      exact formatImage_head_fixed H (trimSpace s) hprops.1 hprops.2.1 hprops.2.2.1
        hprops.2.2.2.1 hprops.2.2.2.2 (trimSpace_rdropWhile_fix s)

/-- Witness for claim C9's theorem at a concrete already-prefixed input. -/
theorem claim_C9_witness :
    formatImageForAPI (("data:image/png;base64,xyz").toList) =
      ("data:image/png;base64,xyz").toList :=
  claim_C9_idempotence.1 (("data:image/png;base64,xyz").toList)
    (by decide) (by decide) (by decide)

/-- Counterexample to claim C9 as stated: an input that begins with the
`data:image/...;base64,` shape but ends in a space is NOT returned
unchanged — the detector returns it with the trailing space removed. -/
theorem claim_C9_counterexample :
    dataMark.isPrefixOf (("data:image/png;base64,x ").toList) = true ∧
    goContains (("data:image/png;base64,x ").toList) b64Mark = true ∧
    formatImageForAPI (("data:image/png;base64,x ").toList) ≠
      ("data:image/png;base64,x ").toList ∧
    formatImageForAPI (("data:image/png;base64,x ").toList) =
      ("data:image/png;base64,x").toList := by
  decide

/-! ### Helper lemmas for alias matching -/

theorem findExact_eq_none (names : List GoStr) (a : GoStr) (h : a ∉ names) :
    findExact names a = none := by
  rw [findExact, List.find?_eq_none]
  intro x hx hxa
  exact h ((of_decide_eq_true hxa) ▸ hx)

theorem findExact_mem (names : List GoStr) (a : GoStr) (h : a ∈ names) :
    findExact names a = some a := by
  cases hfe : findExact names a with
  | some m =>
    have hm := List.find?_some hfe
    rw [of_decide_eq_true hm]
  | none =>
    exact absurd (by simp) ( List.find?_eq_none.mp hfe a h)

/-! ### Claim C1: alias resolution against a non-empty catalog -/

/-- Claim C1: against a non-empty catalog cache, `GetFullModelName`
returns, in precedence order, (a) the cached identifier exactly equal
to the alias when the alias is cached, (b) otherwise the first cached
identifier in cache order that ends with the alias, (c) otherwise the
alias itself — and resolution never fails (it returns `ok` regardless
of the fetch outcome, which is not even consulted). -/
theorem claim_C1_alias_resolution (names : List GoStr) (a : GoStr)
    (hne : names ≠ []) (fetched : Except GoStr (List GoStr)) :
    (getFullModelName ⟨names⟩ fetched a).1 = Except.ok (resolveAlias names a) ∧
    (a ∈ names → resolveAlias names a = a) ∧
    (∀ m, a ∉ names → findSuffix names a = some m →
      m ∈ names ∧ a <:+ m ∧ resolveAlias names a = m) ∧
    ((∀ n ∈ names, ¬ a <:+ n) → resolveAlias names a = a) := by
  refine ⟨?_, ?_, ?_, ?_⟩
  · simp [getFullModelName, hne]
  · intro ha
    simp [resolveAlias, findExact_mem names a ha]
  · intro m hnm hfs
    refine ⟨ List.mem_of_find?_eq_some hfs, ?_, ?_⟩
    · have hsuf := List.find?_some hfs
      rwa [ List.isSuffixOf_iff_suffix] at hsuf
    · simp [resolveAlias, findExact_eq_none names a hnm, hfs]
  · intro hnone
    have hnm : a ∉ names := fun ha => hnone a ha ( List.suffix_refl a)
    have hfs : findSuffix names a = none := by
      rw [findSuffix, List.find?_eq_none]
      intro x hx hsuf
      exact hnone x hx (( List.isSuffixOf_iff_suffix).mp hsuf)
    simp [resolveAlias, findExact_eq_none names a hnm, hfs]

/-- Witness for claim C1's theorem: the alias `"sonnet-4"` against the
one-entry catalog `["anthropic/claude-sonnet-4"]` resolves by suffix
match to the full identifier even while the upstream fetch would fail. -/
theorem claim_C1_witness :
    (getFullModelName ⟨[("anthropic/claude-sonnet-4").toList]⟩
        (Except.error (("boom").toList)) (("sonnet-4").toList)).1 =
      Except.ok (("anthropic/claude-sonnet-4").toList) := by
  have h := claim_C1_alias_resolution [("anthropic/claude-sonnet-4").toList]
    (("sonnet-4").toList) (by decide) (Except.error (("boom").toList))
  exact h.1.trans (congrArg Except.ok (by decide))

/-! ### Claim C6: failure condition and status mapping -/

/-- Claim C6: alias resolution fails if and only if the cache is empty
at resolution time and the synchronous catalog fetch fails; that
failure is surfaced as a 404 response, while a failure of the chat
call itself (with resolution having succeeded, from a warm or a
freshly fetched cache) is surfaced as a 500 response. -/
theorem claim_C6_error_mapping :
    (∀ (st : ProviderState) (fetched : Except GoStr (List GoStr)) (a : GoStr),
      exceptIsOk (getFullModelName st fetched a).1 = false ↔
        (st.modelNames = [] ∧ exceptIsOk fetched = false)) ∧
    (∀ (e a : GoStr) (r : Except GoStr ChatResponse),
      chatHandlerStatus ⟨[]⟩ (Except.error e) a r = 404) ∧
    (∀ (n : GoStr) (ns : List GoStr) (fetched : Except GoStr (List GoStr)) (a msg : GoStr),
      chatHandlerStatus ⟨n :: ns⟩ fetched a (Except.error msg) = 500) ∧
    (∀ (ids : List GoStr) (a msg : GoStr),
      chatHandlerStatus ⟨[]⟩ (Except.ok ids) a (Except.error msg) = 500) := by
  refine ⟨?_, ?_, ?_, ?_⟩
  · intro st fetched a
    rcases st with ⟨names⟩
    cases names <;> cases fetched <;>
      simp [getFullModelName, getModels, exceptIsOk]
  · intro e a r
    simp [chatHandlerStatus, getFullModelName, getModels]
  · intro n ns fetched a msg
    simp [chatHandlerStatus, getFullModelName, getModels]
  · intro ids a msg
    simp [chatHandlerStatus, getFullModelName, getModels]

/-- Witness for claim C6's theorem: an empty cache plus a failing
fetch yields a 404, via the theorem itself. -/
theorem claim_C6_witness :
    chatHandlerStatus ⟨[]⟩ (Except.error (("down").toList)) (("m").toList)
      (Except.ok ⟨[⟨("ok").toList, []⟩]⟩) = 404 :=
  claim_C6_error_mapping.2.1 (("down").toList) (("m").toList)
    (Except.ok ⟨[⟨("ok").toList, []⟩]⟩)

/-! ### Claim C8: catalog cache replacement -/

/-- Claim C8: a failed catalog fetch leaves the cache exactly as it
was, and a successful fetch replaces the cached identifier set
wholesale with the fetched identifiers, with no merging. -/
theorem claim_C8_cache_replacement (st : ProviderState) (e : GoStr)
    (ids : List GoStr) :
    (getModels st (Except.error e)).2 = st ∧
    (getModels st (Except.ok ids)).2.modelNames = ids :=
  ⟨rfl, rfl⟩

/-! ### Claim C7: empty image entries -/

/-- Claim C7, evaluated at the failing input: the message-scoped
`/api/chat` path and the `/api/generate` path skip an empty image
entry (first and third conjuncts), but the top-level `/api/chat` path
does NOT — for the empty top-level image it produces an `ImageRef`
content part with an empty URL (second conjunct), contradicting the
claim; no path aborts the request. -/
theorem claim_C7_empty_image_entries :
    processMessageImages ⟨userRole, ("hi").toList, [("/9j/A").toList, []]⟩ =
      ⟨userRole, [],
        [ChatMessagePart.text ("hi").toList,
         ChatMessagePart.imageURL (("data:image/jpeg;base64,/9j/A").toList)]⟩ ∧
    processChatMessages [⟨userRole, ("hi").toList, []⟩] [[]] =
      [⟨userRole, [],
        [ChatMessagePart.text ("hi").toList, ChatMessagePart.imageURL []]⟩] ∧
    buildGenerateMessages (("hi").toList) [] [[]] =
      [⟨userRole, [], [ChatMessagePart.text ("hi").toList]⟩] := by
  decide

/-! ### Claim C10: the unguarded first-choice read -/

/-- Claim C10, evaluated at the failing input: processing a streamed
event whose choice list is empty is NOT safe — in both streaming
loops, the `response.Choices[0].Delta.Content` read goes out of
bounds, the handler panics, and the already-running stream aborts
with no lines emitted for that event and no terminal envelope. -/
theorem claim_C10_empty_choices_panic :
    chatStream [⟨[]⟩] StreamEnd.eof = StreamOutcome.panicked [] ∧
    genStream [⟨[]⟩] StreamEnd.eof = StreamOutcome.panicked [] ∧
    (chatStream [⟨[]⟩] StreamEnd.eof).isOk = false ∧
    (chatStream [⟨[]⟩] StreamEnd.eof).lines.length = 0 := by
  decide

/-! ### Streaming-loop characterizations -/

theorem chatStreamLoop_wf (events : List StreamEvent) (ending : StreamEnd)
    (fr : GoStr) (h : ∀ e ∈ events, e.choices ≠ []) :
    chatStreamLoop fr events ending =
      StreamOutcome.ok (events.map (fun e => ChatLine.chunk (headDelta e)) ++
        [endLineChat ending (foldFR fr events)]) := by
  induction events generalizing fr with
  | nil =>
    cases ending <;> simp [chatStreamLoop, foldFR, endLineChat]
  | cons e rest ih =>
    rcases hc : e.choices with _ | ⟨c, cs⟩
    · exact absurd hc (h e (List.mem_cons_self e rest))
    · have hrest : ∀ x ∈ rest, x.choices ≠ [] :=
        fun x hx => h x (List.mem_cons_of_mem e hx)
      simp only [chatStreamLoop, hc]
      rw [ih _ hrest]
      simp [StreamOutcome.cons, headDelta, hc, foldFR]

theorem genStreamLoop_wf (events : List StreamEvent) (ending : StreamEnd)
    (fr : GoStr) (h : ∀ e ∈ events, e.choices ≠ []) :
    genStreamLoop fr events ending =
      StreamOutcome.ok (events.map (fun e => GenLine.chunk (headDelta e)) ++
        [endLineGen ending (foldFR fr events)]) := by
  induction events generalizing fr with
  | nil =>
    cases ending <;> simp [genStreamLoop, foldFR, endLineGen]
  | cons e rest ih =>
    rcases hc : e.choices with _ | ⟨c, cs⟩
    · exact absurd hc (h e (List.mem_cons_self e rest))
    · have hrest : ∀ x ∈ rest, x.choices ≠ [] :=
        fun x hx => h x (List.mem_cons_of_mem e hx)
      simp only [genStreamLoop, hc]
      rw [ih _ hrest]
      simp [StreamOutcome.cons, headDelta, hc, foldFR]

/-! ### Claim C2: streamed line counts -/

/-- Claim C2, amended: for every streamed request ALL OF WHOSE
DELIVERED EVENTS CARRY AT LEAST ONE CHOICE (the amendment — an event
with an empty choice list makes the unguarded first-choice read panic,
aborting the stream early, see claim C10), reaching end-of-stream after
`n` events emits exactly `n + 1` NDJSON lines — one `done=false`
envelope per event in upstream order plus one terminal line — and a
transport error after `n` events emits exactly `n + 1` lines — the `n`
envelopes plus one error line — with no `done=true` envelope among
them; in both endpoint flavors. -/
theorem claim_C2_stream_line_counts (events : List StreamEvent) (m : GoStr)
    (h : ∀ e ∈ events, e.choices ≠ []) :
    (chatStream events StreamEnd.eof =
      StreamOutcome.ok (events.map (fun e => ChatLine.chunk (headDelta e)) ++
        [chatFinalLine (foldFR [] events)])) ∧
    ((chatStream events StreamEnd.eof).lines.length = events.length + 1) ∧
    (chatStream events (StreamEnd.transportError m) =
      StreamOutcome.ok (events.map (fun e => ChatLine.chunk (headDelta e)) ++
        [ChatLine.errLine (streamErrHead ++ m)])) ∧
    ((chatStream events (StreamEnd.transportError m)).lines.length = events.length + 1) ∧
    (∀ l ∈ (chatStream events (StreamEnd.transportError m)).lines, l.isDone = false) ∧
    (genStream events StreamEnd.eof =
      StreamOutcome.ok (events.map (fun e => GenLine.chunk (headDelta e)) ++
        [genFinalLine (foldFR [] events)])) ∧
    ((genStream events StreamEnd.eof).lines.length = events.length + 1) ∧
    (genStream events (StreamEnd.transportError m) =
      StreamOutcome.ok (events.map (fun e => GenLine.chunk (headDelta e)) ++
        [GenLine.errLine (streamErrHead ++ m)])) ∧
    ((genStream events (StreamEnd.transportError m)).lines.length = events.length + 1) ∧
    (∀ l ∈ (genStream events (StreamEnd.transportError m)).lines, l.isDone = false) := by
  have hce := chatStreamLoop_wf events StreamEnd.eof [] h
  have hct := chatStreamLoop_wf events (StreamEnd.transportError m) [] h
  have hge := genStreamLoop_wf events StreamEnd.eof [] h
  have hgt := genStreamLoop_wf events (StreamEnd.transportError m) [] h
  refine ⟨hce, ?_, hct, ?_, ?_, hge, ?_, hgt, ?_, ?_⟩
  · rw [chatStream, hce]; simp [StreamOutcome.lines]
  · rw [chatStream, hct]; simp [StreamOutcome.lines, endLineChat]
  · rw [chatStream, hct]
    intro l hl
    simp only [StreamOutcome.lines, List.mem_append, List.mem_map,
      List.mem_singleton, endLineChat] at hl
    rcases hl with ⟨e, _, rfl⟩ | rfl <;> rfl
  · rw [genStream, hge]; simp [StreamOutcome.lines]
  · rw [genStream, hgt]; simp [StreamOutcome.lines, endLineGen]
  · rw [genStream, hgt]
    intro l hl
    simp only [StreamOutcome.lines, List.mem_append, List.mem_map,
      List.mem_singleton, endLineGen] at hl
    rcases hl with ⟨e, _, rfl⟩ | rfl <;> rfl

/-- Witness for claim C2's theorem at one well-formed event. -/
theorem claim_C2_witness :
    chatStream [⟨[⟨("He").toList, []⟩]⟩] StreamEnd.eof =
      StreamOutcome.ok [ChatLine.chunk ("He").toList,
        ChatLine.final stopReason 0 0 0 0 0] :=
  (claim_C2_stream_line_counts [⟨[⟨("He").toList, []⟩]⟩] [] (by decide)).1.trans
    (by decide)

/-- Counterexample to claim C2 as stated: a stream delivering two
events — the second with an empty choice list — then end-of-stream
emits one line and panics, not the claimed three lines. -/
theorem claim_C2_counterexample :
    chatStream [⟨[⟨("Hel").toList, []⟩]⟩, ⟨[]⟩] StreamEnd.eof =
      StreamOutcome.panicked [ChatLine.chunk ("Hel").toList] ∧
    (chatStream [⟨[⟨("Hel").toList, []⟩]⟩, ⟨[]⟩] StreamEnd.eof).lines.length ≠ 2 + 1 := by
  decide

/-! ### Claim C3: the terminal envelope -/

/-- Claim C3, amended: every streamed request (with well-formed
events) that reaches upstream end-of-stream emits exactly one
`done=true` envelope, as the last line, carrying empty delta text and
the last finish reason observed across events (default `"stop"`), and
no finish reason is surfaced in any `done=false` envelope (those lines
carry only delta content); its statistics fields are all zero for
`/api/chat` but are the fixed nonzero placeholder values 1000000000,
5000000, 20, 200000000, 100, 800000000 for `/api/generate` (the
amendment — the claimed zero-valued or usage-derived statistics are
wrong for the generate flavor, which reads no usage summary at all). -/
theorem claim_C3_terminal_envelope (events : List StreamEvent)
    (h : ∀ e ∈ events, e.choices ≠ []) :
    ((chatStream events StreamEnd.eof).lines.getLast? =
      some (ChatLine.final
        (if foldFR [] events = [] then stopReason else foldFR [] events) 0 0 0 0 0)) ∧
    ((chatStream events StreamEnd.eof).lines.countP ChatLine.isDone = 1) ∧
    (∀ l ∈ (chatStream events StreamEnd.eof).lines.dropLast, l.isChunk = true) ∧
    ((genStream events StreamEnd.eof).lines.getLast? =
      some (GenLine.final
        (if foldFR [] events = [] then stopReason else foldFR [] events)
        1000000000 5000000 20 200000000 100 800000000)) ∧
    ((genStream events StreamEnd.eof).lines.countP GenLine.isDone = 1) ∧
    (∀ l ∈ (genStream events StreamEnd.eof).lines.dropLast, l.isChunk = true) := by
  have hce := chatStreamLoop_wf events StreamEnd.eof [] h
  have hge := genStreamLoop_wf events StreamEnd.eof [] h
  refine ⟨?_, ?_, ?_, ?_, ?_, ?_⟩
  · rw [chatStream, hce]
    simp [StreamOutcome.lines, endLineChat, chatFinalLine]
  · rw [chatStream, hce]
    simp only [StreamOutcome.lines, List.countP_append, endLineChat]
    rw [List.countP_eq_zero.mpr
      (by intro x hx; obtain ⟨e, _, rfl⟩ := List.mem_map.mp hx
          simp only [Bool.not_eq_true]; rfl)]
    rfl
  · rw [chatStream, hce]
    simp only [StreamOutcome.lines, List.dropLast_concat]
    rintro l hl
    obtain ⟨e, _, rfl⟩ := List.mem_map.mp hl
    rfl
  · rw [genStream, hge]
    simp [StreamOutcome.lines, endLineGen, genFinalLine]
  · rw [genStream, hge]
    simp only [StreamOutcome.lines, List.countP_append, endLineGen]
    rw [List.countP_eq_zero.mpr
      (by intro x hx; obtain ⟨e, _, rfl⟩ := List.mem_map.mp hx
          simp only [Bool.not_eq_true]; rfl)]
    rfl
  · rw [genStream, hge]
    simp only [StreamOutcome.lines, List.dropLast_concat]
    rintro l hl
    obtain ⟨e, _, rfl⟩ := List.mem_map.mp hl
    rfl

/-- Witness for claim C3's theorem: one event carrying finish reason
`"length"` yields a terminal envelope with that reason and zero chat
statistics. -/
theorem claim_C3_witness :
    (chatStream [⟨[⟨("x").toList, ("length").toList⟩]⟩] StreamEnd.eof).lines.getLast? =
      some (ChatLine.final ("length").toList 0 0 0 0 0) :=
  (claim_C3_terminal_envelope [⟨[⟨("x").toList, ("length").toList⟩]⟩]
    (by decide)).1.trans (by decide)

/-- Counterexample to claim C3 as stated: the `/api/generate` terminal
envelope of an empty stream carries the fixed placeholder statistics,
not zero-valued fields (and no usage summary exists to derive them
from — the loop never reads one). -/
theorem claim_C3_counterexample :
    (genStream [] StreamEnd.eof).lines =
      [GenLine.final stopReason 1000000000 5000000 20 200000000 100 800000000] ∧
    (genStream [] StreamEnd.eof).lines ≠
      [GenLine.final stopReason 0 0 0 0 0 0] := by
  decide

/-! ### Claim C4: content-part order under combined image sources -/

theorem processMessageImages_role (m : MessageWithImages) :
    (processMessageImages m).role = m.role := by
  unfold processMessageImages
  split <;> rfl

theorem lastUserMsgIndex_none (l : List ChatCompletionMessage)
    (h : ∀ m ∈ l, m.role ≠ userRole) : lastUserMsgIndex l = none := by
  induction l with
  | nil => rfl
  | cons m rest ih =>
    have hr : ∀ x ∈ rest, x.role ≠ userRole :=
      fun x hx => h x (List.mem_cons_of_mem m hx)
    simp only [lastUserMsgIndex, ih hr]
    rw [if_neg (h m (List.mem_cons_self m rest))]

theorem lastUserMsgIndex_lt (l : List ChatCompletionMessage) (i : Nat)
    (h : lastUserMsgIndex l = some i) : i < l.length := by
  induction l generalizing i with
  | nil => cases h
  | cons m rest ih =>
    simp only [lastUserMsgIndex] at h
    cases hrest : lastUserMsgIndex rest with
    | some j =>
      rw [hrest] at h
      cases h
      exact Nat.succ_lt_succ (ih j hrest)
    | none =>
      rw [hrest] at h
      by_cases hm : m.role = userRole
      · rw [if_pos hm] at h
        cases h
        simp
      · rw [if_neg hm] at h
        cases h

/-- Claim C4: a `/api/chat` request combining message-scoped images
(all non-empty) and top-level images targeting the same message — the
last user-role message — yields for that message the content-part
sequence: one text part with the original text, then one image part
per message-scoped image in order, then one image part per top-level
image in order; and when no user-role message exists, the top-level
images are silently dropped, leaving every message untouched by the
top-level pass. -/
theorem claim_C4_content_part_order :
    (∀ (msgs : List MessageWithImages) (top : List GoStr) (i : Nat)
        (msg : MessageWithImages),
      msgs[i]? = some msg →
      msg.role = userRole →
      msg.images ≠ [] →
      (∀ img ∈ msg.images, img ≠ []) →
      top ≠ [] →
      lastUserMsgIndex (msgs.map processMessageImages) = some i →
      (processChatMessages msgs top)[i]? =
        some ⟨userRole, [],
          ChatMessagePart.text msg.content ::
            (msg.images.map (fun img => ChatMessagePart.imageURL (formatImageForAPI img)) ++
             top.map (fun img => ChatMessagePart.imageURL (formatImageForAPI img)))⟩) ∧
    (∀ (msgs : List MessageWithImages) (top : List GoStr),
      (∀ m ∈ msgs, m.role ≠ userRole) →
      processChatMessages msgs top = msgs.map processMessageImages) := by
  constructor
  · intro msgs top i msg hmsg hrole himgs hne htop hlast
    have hilt : i < msgs.length := by
      have := lastUserMsgIndex_lt _ i hlast
      simpa using this
    have hpne : msgs.map processMessageImages ≠ [] := by
      intro hnil
      rw [hnil] at hlast
      cases hlast
    have hfilter : msg.images.filter (fun img => img ≠ []) = msg.images :=
      List.filter_eq_self.mpr (fun a ha => by simpa using hne a ha)
    have hpm : processMessageImages msg =
        ⟨userRole, [],
          ChatMessagePart.text msg.content ::
            msg.images.map (fun img => ChatMessagePart.imageURL (formatImageForAPI img))⟩ := by
      unfold processMessageImages
      rw [if_neg (by push_neg; exact ⟨hrole, himgs⟩), hfilter, hrole]
    have hget : (msgs.map processMessageImages)[i]? = some (processMessageImages msg) := by
      rw [List.getElem?_map, hmsg]
      rfl
    have hattach : attachTopImages (processMessageImages msg) top =
        ⟨userRole, [],
          ChatMessagePart.text msg.content ::
            (msg.images.map (fun img => ChatMessagePart.imageURL (formatImageForAPI img)) ++
             top.map (fun img => ChatMessagePart.imageURL (formatImageForAPI img)))⟩ := by
      rw [hpm]
      unfold attachTopImages
      simp
    simp only [processChatMessages]
    rw [if_neg (by push_neg; exact ⟨htop, hpne⟩), hlast]
    simp only [hget]
    rw [List.getElem?_set]
    simp only [List.length_map, if_true]
    rw [if_pos hilt, hattach]
  · intro msgs top h
    by_cases ht : top = []
    · simp only [processChatMessages]
      rw [if_pos (Or.inl ht)]
    · have hl : lastUserMsgIndex (msgs.map processMessageImages) = none := by
        apply lastUserMsgIndex_none
        intro m hm
        obtain ⟨x, hx, rfl⟩ := List.mem_map.mp hm
        rw [processMessageImages_role]
        exact h x hx
      simp only [processChatMessages]
      by_cases hp : msgs.map processMessageImages = []
      · rw [if_pos (Or.inr hp)]
      · rw [if_neg (by push_neg; exact ⟨ht, hp⟩), hl]

/-- Witness for claim C4's theorem: one user message with text
`"hi"` and a message-scoped JPEG image, plus one top-level PNG image. -/
theorem claim_C4_witness :
    (processChatMessages [⟨userRole, ("hi").toList, [("/9j/A").toList]⟩]
        [("iVBORx").toList])[0]? =
      some ⟨userRole, [],
        [ChatMessagePart.text ("hi").toList,
         ChatMessagePart.imageURL (("data:image/jpeg;base64,/9j/A").toList),
         ChatMessagePart.imageURL (("data:image/png;base64,iVBORx").toList)]⟩ := by
  have h := claim_C4_content_part_order.1
    [⟨userRole, ("hi").toList, [("/9j/A").toList]⟩] [("iVBORx").toList] 0
    ⟨userRole, ("hi").toList, [("/9j/A").toList]⟩
    rfl rfl (by decide) (by decide) (by decide) (by decide)
  exact h.trans (congrArg some (by decide))

end OllamaProxy
